import Mathlib

/-!
# UEComponentPicker: the picker value and its editor customization

A shallow embedding of

* `Source/ComponentPicker/Public/ComponentPickerStruct.h`
  (`FComponentPicker::Get`, `Pick`, `SetAllowedClass`, `IsSet`), and
* `Source/ComponentPickerEditor/Private/ComponentPickerTypeCustomization.cpp`
  (`ExtractAllowedComponentClass`, `TrySetComponent`, `FetchActorCDOForProperty`).

Engine objects live in a heap indexed by `ObjId`; a C++ pointer is an
`Option ObjId` with `none` for `nullptr`.  Everything the host engine answers
about an object (its name, owner, outer, validity, casts) is a field of the
world the code runs in.  The `const` methods that write through `const_cast`
return the new picker next to their result.
-/

namespace ComponentPicker

/-- Identity of an engine object (the address a non-null `UObject*` holds). -/
abbrev ObjId := Nat

/-! ## Engine strings -/

/-- The literal passed to `RemoveFromEnd` in `FComponentPicker::Get`. -/
def GEN_VARIABLE : String := "_GEN_VARIABLE"

/-- Modelled from the spec: the engine's `FString::RemoveFromEnd`, which is not part of this
repository.  One trailing occurrence of the suffix is removed; a string that does not end
with the suffix is returned as it is. -/
def RemoveFromEnd (Str InSuffix : String) : String :=
  if InSuffix.data.isSuffixOf Str.data then
    String.mk (Str.data.take (Str.data.length - InSuffix.data.length))
  else Str

/-! ## Runtime world: actors and their components -/

/-- What the engine answers at run time about actors and components. -/
structure World where
  /-- `UObject::GetName()`, also `GetFName().ToString()`.  Two names are the same name when
  these strings are equal. -/
  GetName : ObjId → String
  /-- `UActorComponent::GetOwner()`. -/
  GetOwner : ObjId → Option ObjId
  /-- `AActor::GetComponents()`, in the iteration order of the set.  Every entry is a
  component object: the loop of `Get` dereferences each entry unchecked. -/
  GetComponents : ObjId → List ObjId
  /-- Whether the object in this slot is still alive (a weak pointer to it resolves). -/
  IsAlive : ObjId → Bool

/-- `TWeakObjectPtr<UActorComponent>`: explicitly null, or bound to an object slot
whose object may have been destroyed since. -/
inductive TWeakObjectPtr where
  | explicitNull
  | ref (Object : ObjId)
  deriving DecidableEq, Repr

/-- `TWeakObjectPtr::IsExplicitlyNull()`. -/
def TWeakObjectPtr.IsExplicitlyNull : TWeakObjectPtr → Bool
  | .explicitNull => true
  | .ref _ => false

/-- `TWeakObjectPtr::Get()`: the object when it is still alive, `nullptr` otherwise. -/
def TWeakObjectPtr.Get (w : World) : TWeakObjectPtr → Option ObjId
  | .explicitNull => none
  | .ref Object => if w.IsAlive Object then some Object else none

/-- `struct FComponentPicker`. -/
structure FComponentPicker where
  /-- `TSubclassOf<UActorComponent> AllowedClass`. -/
  AllowedClass : Option ObjId
  /-- `UActorComponent* Component = nullptr`. -/
  Component : Option ObjId
  /-- `TWeakObjectPtr<UActorComponent> Instance = nullptr`. -/
  Instance : TWeakObjectPtr
  deriving DecidableEq, Repr

namespace FComponentPicker

/-- `FComponentPicker::Pick`. -/
def Pick (self : FComponentPicker) (PickedComponent : Option ObjId) : FComponentPicker :=
  { self with Component := PickedComponent }

/-- `FComponentPicker::SetAllowedClass`. -/
def SetAllowedClass (self : FComponentPicker) (NewAllowedClass : Option ObjId) :
    FComponentPicker :=
  { self with AllowedClass := NewAllowedClass }

/-- `FComponentPicker::IsSet`. -/
def IsSet (self : FComponentPicker) : Bool :=
  self.Component.isSome

/-- The range-for of `Get(const AActor*)` over the owned components: the first component
whose name equals `ComponentName`, or `none` when the loop runs to its end. -/
def findOwned (w : World) (ComponentName : String) : List ObjId → Option ObjId
  | [] => none
  | ComponentInstance :: rest =>
    if w.GetName ComponentInstance = ComponentName then some ComponentInstance
    else findOwned w ComponentName rest

/-- `UActorComponent* FComponentPicker::Get(const AActor* ActorContext) const`.
Returns the component and the picker after the call (the method stores the
component it found in `Instance`). -/
def GetActorContext (w : World) (self : FComponentPicker) (ActorContext : Option ObjId) :
    Option ObjId × FComponentPicker :=
  if !self.Instance.IsExplicitlyNull then (self.Instance.Get w, self)
  else
    match ActorContext with
    | none => (none, self)
    | some Actor =>
      if !self.IsSet then (none, self)
      else
        match self.Component with
        | none => (none, self)
        | some Component =>
          let ComponentName := RemoveFromEnd (w.GetName Component) GEN_VARIABLE
          match findOwned w ComponentName (w.GetComponents Actor) with
          | some ComponentInstance =>
            (some ComponentInstance, { self with Instance := .ref ComponentInstance })
          | none => (none, self)

/-- `UActorComponent* FComponentPicker::Get(const UActorComponent* ComponentContext) const`. -/
def GetComponentContext (w : World) (self : FComponentPicker)
    (ComponentContext : Option ObjId) : Option ObjId × FComponentPicker :=
  if !self.Instance.IsExplicitlyNull then (self.Instance.Get w, self)
  else
    match ComponentContext with
    | none => (none, self)
    | some Context => GetActorContext w self (w.GetOwner Context)

end FComponentPicker

/-! ## Editor world: outers, casts, edited assets -/

/-- What the engine answers in the editor about an object. -/
structure EditorWorld where
  /-- `IsValid(Object)` for a non-null object. -/
  IsValid : ObjId → Bool
  /-- Whether `Cast<AActor>(Object)` succeeds. -/
  IsActor : ObjId → Bool
  /-- Whether `Cast<UClass>(Object)` succeeds. -/
  IsClass : ObjId → Bool
  /-- Whether `Cast<UBlueprint>(Object)` succeeds. -/
  IsBlueprint : ObjId → Bool
  /-- `UBlueprint::GeneratedClass` (statically a `UClass*`). -/
  GeneratedClass : ObjId → Option ObjId
  /-- `UObject::GetOuter()`. -/
  GetOuter : ObjId → Option ObjId
  /-- `UClass::GetDefaultObject()`. -/
  GetDefaultObject : ObjId → Option ObjId
  /-- `UAssetEditorSubsystem::GetAllEditedAssets()`. -/
  GetAllEditedAssets : List (Option ObjId)
  /-- `Object->IsA(Class)`. -/
  IsA : ObjId → ObjId → Bool

/-- `FPropertyAccess::Result`. -/
inductive FPropertyAccess where
  | MultipleValues
  | Fail
  | Success
  deriving DecidableEq, Repr

/-- What an `IPropertyHandle` answers to the two queries the customization makes. -/
structure IPropertyHandle where
  /-- `GetValue(UObject*&)`: the result code and the object written to the out parameter. -/
  GetValue : FPropertyAccess × Option ObjId
  /-- `GetOuterObjects(TArray<UObject*>&)`. -/
  GetOuterObjects : List (Option ObjId)

/-- The engine calls `TrySetComponent` makes, in the order it makes them. -/
inductive EditorCall where
  /-- Construction of the `FScopedTransaction`. -/
  | ScopedTransaction
  /-- `Object->SetFlags(RF_Transactional)`. -/
  | SetFlags (Object : ObjId)
  /-- `Object->Modify()`. -/
  | Modify (Object : ObjId)
  /-- `ComponentPropHandle->SetValue(Component)`. -/
  | SetValue (Component : Option ObjId)
  deriving DecidableEq, Repr

/-- The editor state `TrySetComponent` acts on. -/
structure EditorState where
  /-- The value the picker's `Component` property holds. -/
  Component : Option ObjId
  /-- The objects that carry `RF_Transactional`. -/
  Transactional : List ObjId
  /-- The objects saved by `Modify()`. -/
  Modified : List ObjId
  /-- Every engine call made so far, oldest first. -/
  Calls : List EditorCall
  deriving DecidableEq, Repr

/-- The three handles `CustomizeHeader` stores in the customization. -/
structure FComponentPickerTypeCustomization where
  PropHandle : IPropertyHandle
  ComponentPropHandle : IPropertyHandle
  AllowedClassPropHandle : IPropertyHandle

namespace FComponentPickerTypeCustomization

/-- `FComponentPickerTypeCustomization::ExtractAllowedComponentClass`. -/
def ExtractAllowedComponentClass (w : EditorWorld) (PropHandle : IPropertyHandle) :
    Option ObjId :=
  match PropHandle.GetValue with
  | (.Success, some Value) => if w.IsClass Value then some Value else none
  | (.Success, none) => none
  | _ => none

/-- The loop over `GetAllEditedAssets()` inside `FetchActorCDOForProperty`: the actor
default object of `Outer`, returned at the first edited blueprint whose generated class is
`Outer`.  `Cast<UClass>(Outer)` succeeds there, `GeneratedClass` being a `UClass*`. -/
def findEditedCDO (w : EditorWorld) (Outer : ObjId) : List (Option ObjId) → Option ObjId
  | [] => none
  | none :: rest => findEditedCDO w Outer rest
  | some EditedAsset :: rest =>
    if w.IsBlueprint EditedAsset then
      if w.GeneratedClass EditedAsset = some Outer then
        match w.GetDefaultObject Outer with
        | some CDO => if w.IsActor CDO then some CDO else findEditedCDO w Outer rest
        | none => findEditedCDO w Outer rest
      else findEditedCDO w Outer rest
    else findEditedCDO w Outer rest

/-- The `do ... while (Outer != NextOuter)` loop of `FetchActorCDOForProperty`, entered with
`NextOuter`.  `none`: the fuel ran out; `some none`: the loop ended (by `break` or by its
condition) without a `return`; `some (some Actor)`: the function returned `Actor`. -/
def walkOuters (w : EditorWorld) : Nat → Option ObjId → Option (Option ObjId)
  | 0, _ => none
  | _ + 1, none => some none
  | fuel + 1, some Outer =>
    if !w.IsValid Outer then some none
    else if w.IsActor Outer then some (some Outer)
    else
      match findEditedCDO w Outer w.GetAllEditedAssets with
      | some ActorCDO => some (some ActorCDO)
      | none =>
        if w.GetOuter Outer = some Outer then some none
        else walkOuters w fuel (w.GetOuter Outer)

/-- The range-for of `FetchActorCDOForProperty` over the outer objects; `fuel` bounds the
steps of each inner walk, and `none` means it did not suffice. -/
def fetchFrom (w : EditorWorld) (fuel : Nat) : List (Option ObjId) → Option (Option ObjId)
  | [] => some none
  | Object :: rest =>
    match walkOuters w fuel Object with
    | none => none
    | some (some Actor) => some (some Actor)
    | some none => fetchFrom w fuel rest

/-- `FComponentPickerTypeCustomization::FetchActorCDOForProperty`. -/
def FetchActorCDOForProperty (w : EditorWorld) (fuel : Nat) (PropertyHandle : IPropertyHandle) :
    Option (Option ObjId) :=
  fetchFrom w fuel PropertyHandle.GetOuterObjects

/-- `FComponentPickerTypeCustomization::TrySetComponent`.  `none` only when the walk of
`FetchActorCDOForProperty` ran out of fuel. -/
def TrySetComponent (w : EditorWorld) (self : FComponentPickerTypeCustomization) (fuel : Nat)
    (st : EditorState) (Component : Option ObjId) : Option EditorState :=
  let AllowedClass := ExtractAllowedComponentClass w self.AllowedClassPropHandle
  let filteredOut : Bool :=
    match Component, AllowedClass with
    | some C, some A => !w.IsA C A
    | _, _ => false
  if filteredOut then some st
  else
    match FetchActorCDOForProperty w fuel self.PropHandle with
    | none => none
    | some none => some st
    | some (some ActorCDO) =>
      some
        { Component := Component
          Transactional := ActorCDO :: st.Transactional
          Modified := ActorCDO :: st.Modified
          Calls := st.Calls ++
            [.ScopedTransaction, .SetFlags ActorCDO, .Modify ActorCDO, .SetValue Component] }

end FComponentPickerTypeCustomization

/-! ## The outer-chain walk as the specification words it -/

/-- Follows the spec: the chain of an object, walked from the object towards its outermost
outer, cut after `n` elements. -/
def outerChain (w : EditorWorld) : Nat → Option ObjId → List ObjId
  | 0, _ => []
  | _ + 1, none => []
  | n + 1, some Object => Object :: outerChain w n (w.GetOuter Object)

/-- Follows the spec: whether a chain element is the generated class of a currently edited
blueprint. -/
def isEditedGeneratedClass (w : EditorWorld) (Element : ObjId) : Bool :=
  w.GetAllEditedAssets.any fun Asset =>
    match Asset with
    | some Blueprint => w.IsBlueprint Blueprint && w.GeneratedClass Blueprint == some Element
    | none => false

/-- Follows the spec: the owning object a chain element yields: the element when it is an
actor, or its actor default object when it is the generated class of an edited blueprint. -/
def owningObject (w : EditorWorld) (Element : ObjId) : Option ObjId :=
  if w.IsActor Element then some Element
  else if isEditedGeneratedClass w Element then
    match w.GetDefaultObject Element with
    | some CDO => if w.IsActor CDO then some CDO else none
    | none => none
  else none

/-- Follows the spec: the elements of a chain that are visited: those before its first
invalid element. -/
def visited (w : EditorWorld) (n : Nat) (Object : Option ObjId) : List ObjId :=
  (outerChain w n Object).takeWhile w.IsValid

/-- Follows the spec: the first owning object found when the objects are visited in list
order and each chain from the object outwards. -/
def firstOwningObject (w : EditorWorld) (n : Nat) (ObjectArray : List (Option ObjId)) :
    Option ObjId :=
  ObjectArray.findSome? fun Object => (visited w n Object).findSome? (owningObject w)

/-! ## Concrete worlds -/

/-- A spawned actor `0` that owns the components `1` ("Mesh") and `2` ("Light"); `3` and
`4` are the templates of these two components in the blueprint. -/
def demoWorld : World where
  GetName := fun o =>
    match o with
    | 1 => "Mesh"
    | 2 => "Light"
    | 3 => "Mesh_GEN_VARIABLE"
    | 4 => "Light_GEN_VARIABLE"
    | _ => "Hero"
  GetOwner := fun o =>
    match o with
    | 1 => some 0
    | 2 => some 0
    | _ => none
  GetComponents := fun o =>
    match o with
    | 0 => [1, 2]
    | _ => []
  IsAlive := fun _ => true

/-- A picker as default-constructed (`AllowedClass` is the class object `9`). -/
def freshPicker : FComponentPicker :=
  { AllowedClass := some 9, Component := none, Instance := .explicitNull }

/-- An editor world: the template `5` lies in the generated class `4`, which lies in the
package `3`; the edited blueprint `7` generates class `4`, whose default object is the
actor `6`.  Class `8` is a component class of which `5` is an instance; `9` is a class of
which it is not. -/
def demoEditor : EditorWorld where
  IsValid := fun _ => true
  IsActor := fun o => o == 6
  IsClass := fun o => o == 4 || o == 8 || o == 9
  IsBlueprint := fun o => o == 7
  GeneratedClass := fun o => if o = 7 then some 4 else none
  GetOuter := fun o =>
    match o with
    | 5 => some 4
    | 4 => some 3
    | _ => none
  GetDefaultObject := fun o => if o = 4 then some 6 else none
  GetAllEditedAssets := [some 7]
  IsA := fun o c => o == 5 && c == 8

/-- The handle of the picker property edited on the template `5`. -/
def demoPropHandle : IPropertyHandle :=
  { GetValue := (.Fail, none), GetOuterObjects := [some 5] }

/-- A customization whose `AllowedClass` property holds class `8`. -/
def demoCustomization : FComponentPickerTypeCustomization :=
  { PropHandle := demoPropHandle
    ComponentPropHandle := { GetValue := (.Success, none), GetOuterObjects := [some 5] }
    AllowedClassPropHandle := { GetValue := (.Success, some 8), GetOuterObjects := [some 5] } }

/-- An editor state in which nothing has happened yet. -/
def idleState : EditorState :=
  { Component := none, Transactional := [], Modified := [], Calls := [] }

/-! ## Lemmas on the engine strings -/

theorem RemoveFromEnd_append (Base InSuffix : String) :
    RemoveFromEnd (Base ++ InSuffix) InSuffix = Base := by
  unfold RemoveFromEnd
  have hsuf : InSuffix.data.isSuffixOf (Base ++ InSuffix).data = true := by
    rw [List.isSuffixOf_iff_suffix, String.data_append]
    exact List.suffix_append _ _
  rw [if_pos hsuf]
  simp [String.data_append]

theorem RemoveFromEnd_of_not_suffix (Str InSuffix : String)
    (h : ¬ ∃ Base : String, Str = Base ++ InSuffix) : RemoveFromEnd Str InSuffix = Str := by
  unfold RemoveFromEnd
  have hsuf : ¬ InSuffix.data.isSuffixOf Str.data = true := by
    rw [List.isSuffixOf_iff_suffix]
    rintro ⟨t, ht⟩
    exact h ⟨String.mk t, by apply String.ext; simpa using ht.symm⟩
  rw [if_neg hsuf]

/-! ## Lemmas on the search through the owned components -/

theorem findOwned_eq_none_iff (w : World) (N : String) (l : List ObjId) :
    FComponentPicker.findOwned w N l = none ↔ ∀ x ∈ l, w.GetName x ≠ N := by
  induction l with
  | nil => simp [FComponentPicker.findOwned]
  | cons a l ih =>
    unfold FComponentPicker.findOwned
    by_cases h : w.GetName a = N
    · simp [h]
    · simp [h, ih]

theorem findOwned_eq_some (w : World) (N : String) (l : List ObjId) (x : ObjId)
    (h : FComponentPicker.findOwned w N l = some x) :
    ∃ pre post, l = pre ++ x :: post ∧ w.GetName x = N ∧ ∀ y ∈ pre, w.GetName y ≠ N := by
  induction l with
  | nil => simp [FComponentPicker.findOwned] at h
  | cons a l ih =>
    unfold FComponentPicker.findOwned at h
    by_cases ha : w.GetName a = N
    · rw [if_pos ha] at h
      cases h
      exact ⟨[], l, rfl, ha, by simp⟩
    · rw [if_neg ha] at h
      obtain ⟨pre, post, hl, hx, hpre⟩ := ih h
      refine ⟨a :: pre, post, by rw [hl]; rfl, hx, ?_⟩
      intro y hy
      rcases List.mem_cons.mp hy with rfl | hy
      · exact ha
      · exact hpre y hy

/-- With an explicitly null cache, a set picker and an actor, `Get` is the search. -/
theorem GetActorContext_search (w : World) (p : FComponentPicker) (Component Actor : ObjId)
    (hInst : p.Instance = .explicitNull) (hComp : p.Component = some Component) :
    (p.GetActorContext w (some Actor)).1 =
      FComponentPicker.findOwned w (RemoveFromEnd (w.GetName Component) GEN_VARIABLE)
        (w.GetComponents Actor) := by
  unfold FComponentPicker.GetActorContext
  simp only [hInst, hComp, TWeakObjectPtr.IsExplicitlyNull, FComponentPicker.IsSet,
    Option.isSome_some, Bool.not_true, Bool.false_eq_true, if_false]
  cases FComponentPicker.findOwned w (RemoveFromEnd (w.GetName Component) GEN_VARIABLE)
    (w.GetComponents Actor) <;> rfl

/-! ## The picker: claims C1, C2, C4, C5 -/

/-- C1. Name-matching resolution of `Get(const AActor*)`: for a picker whose cached
`Instance` is explicitly null and whose `Component` is set, and for an actor, let `N` be the
picked component's name with one trailing `_GEN_VARIABLE` removed (the name itself when it
has no such suffix).  If the actor owns a component named `N`, `Get` returns the first owned
component of that name in iteration order; if it owns none, `Get` returns null. -/
theorem get_resolves_by_name (w : World) (p : FComponentPicker) (Component Actor : ObjId)
    (N : String)
    (hInst : p.Instance = .explicitNull) (hComp : p.Component = some Component)
    (hN : N = RemoveFromEnd (w.GetName Component) GEN_VARIABLE) :
    ((∀ Base : String, w.GetName Component = Base ++ "_GEN_VARIABLE" → N = Base) ∧
      ((¬ ∃ Base : String, w.GetName Component = Base ++ "_GEN_VARIABLE") →
        N = w.GetName Component)) ∧
    ((∃ x ∈ w.GetComponents Actor, w.GetName x = N) →
      ∃ x pre post, w.GetComponents Actor = pre ++ x :: post ∧ w.GetName x = N ∧
        (∀ y ∈ pre, w.GetName y ≠ N) ∧ (p.GetActorContext w (some Actor)).1 = some x) ∧
    ((∀ x ∈ w.GetComponents Actor, w.GetName x ≠ N) →
      (p.GetActorContext w (some Actor)).1 = none) := by
  have hget := GetActorContext_search w p Component Actor hInst hComp
  rw [← hN] at hget
  refine ⟨⟨?_, ?_⟩, ?_, ?_⟩
  · intro Base hBase
    rw [hN, hBase]
    exact RemoveFromEnd_append Base GEN_VARIABLE
  · intro hno
    rw [hN]
    exact RemoveFromEnd_of_not_suffix _ _ hno
  · rintro ⟨x, hx, hname⟩
    cases hfind : FComponentPicker.findOwned w N (w.GetComponents Actor) with
    | none => exact absurd hname ((findOwned_eq_none_iff w N _).mp hfind x hx)
    | some y =>
      obtain ⟨pre, post, hl, hy, hpre⟩ := findOwned_eq_some w N _ y hfind
      exact ⟨y, pre, post, hl, hy, hpre, by rw [hget, hfind]⟩
  · intro hnone
    rw [hget]
    exact (findOwned_eq_none_iff w N _).mpr hnone

/-- Witness of C1: the picker set to the template `Mesh_GEN_VARIABLE` resolves, on the actor
`0`, to the owned component `1` named `Mesh`. -/
theorem get_resolves_by_name_witness :
    ((freshPicker.Pick (some 3)).GetActorContext demoWorld (some 0)).1 = some 1 := by
  obtain ⟨_, hfound, _⟩ :=
    get_resolves_by_name demoWorld (freshPicker.Pick (some 3)) 3 0 "Mesh" rfl rfl (by decide)
  obtain ⟨x, pre, post, hl, hname, _, hx⟩ := hfound ⟨1, by decide, by decide⟩
  have hmem : x ∈ demoWorld.GetComponents 0 := by rw [hl]; simp
  have hcases : x = 1 ∨ x = 2 := by simpa [demoWorld] using hmem
  rcases hcases with rfl | rfl
  · exact hx
  · exact absurd hname (by decide)

/-- C2, evaluated on the code: after `Pick(Mesh)`, `Get`, `Pick(Light)`, the next `Get` on
the same actor returns the component `1` that matched the first pick, although the actor
owns the component `2` whose name matches the second pick. -/
theorem get_after_repick_returns_stale_instance :
    ((freshPicker.Pick (some 3)).GetActorContext demoWorld (some 0)).1 = some 1 ∧
    ((((freshPicker.Pick (some 3)).GetActorContext demoWorld (some 0)).2.Pick
        (some 4)).GetActorContext demoWorld (some 0)).1 = some 1 ∧
    demoWorld.GetName 3 ≠ demoWorld.GetName 4 ∧
    FComponentPicker.findOwned demoWorld (RemoveFromEnd (demoWorld.GetName 4) GEN_VARIABLE)
      (demoWorld.GetComponents 0) = some 2 := by
  decide

/-- C4. `Get` returns null when there is nothing to resolve: with an explicitly null cache,
`Get(const AActor*)` returns null for a null actor and for a picker that is not set, and
`Get(const UActorComponent*)` returns null for a null component; the picker is unchanged. -/
theorem get_null_when_nothing_to_resolve (w : World) (p : FComponentPicker)
    (hInst : p.Instance = .explicitNull) :
    p.GetActorContext w none = (none, p) ∧
    (p.IsSet = false → ∀ ActorContext, p.GetActorContext w ActorContext = (none, p)) ∧
    p.GetComponentContext w none = (none, p) := by
  refine ⟨?_, ?_, ?_⟩
  · simp [FComponentPicker.GetActorContext, hInst, TWeakObjectPtr.IsExplicitlyNull]
  · intro hset ActorContext
    cases ActorContext <;>
      simp [FComponentPicker.GetActorContext, hInst, TWeakObjectPtr.IsExplicitlyNull, hset]
  · simp [FComponentPicker.GetComponentContext, hInst, TWeakObjectPtr.IsExplicitlyNull]

/-- Witness of C4 on the default-constructed picker, which is not set. -/
theorem get_null_when_nothing_to_resolve_witness :
    freshPicker.GetActorContext demoWorld none = (none, freshPicker) ∧
    freshPicker.GetActorContext demoWorld (some 0) = (none, freshPicker) ∧
    freshPicker.GetComponentContext demoWorld none = (none, freshPicker) :=
  have h := get_null_when_nothing_to_resolve demoWorld freshPicker rfl
  ⟨h.1, h.2.1 rfl (some 0), h.2.2⟩

/-- C5. The two `Get` overloads agree: for every picker and every non-null component
context `X`, `Get(X)` returns the same component and leaves the same picker as
`Get(X->GetOwner())`, whatever the cached `Instance`; with an explicitly null cache and an
`X` without owner both return null. -/
theorem get_overloads_agree (w : World) (p : FComponentPicker) (X : ObjId) :
    p.GetComponentContext w (some X) = p.GetActorContext w (w.GetOwner X) ∧
    (p.Instance = .explicitNull → w.GetOwner X = none →
      p.GetComponentContext w (some X) = (none, p) ∧
      p.GetActorContext w (w.GetOwner X) = (none, p)) := by
  have hagree : p.GetComponentContext w (some X) = p.GetActorContext w (w.GetOwner X) := by
    unfold FComponentPicker.GetComponentContext
    by_cases h : (!p.Instance.IsExplicitlyNull) = true
    · rw [if_pos h]
      unfold FComponentPicker.GetActorContext
      rw [if_pos h]
    · rw [if_neg h]
  refine ⟨hagree, ?_⟩
  intro hInst hOwner
  rw [hagree, hOwner]
  simp [FComponentPicker.GetActorContext, hInst, TWeakObjectPtr.IsExplicitlyNull]

/-- Witness of C5: the template `3` has no owner; both overloads return null on it. -/
theorem get_overloads_agree_witness :
    freshPicker.GetComponentContext demoWorld (some 3) = (none, freshPicker) ∧
    freshPicker.GetActorContext demoWorld (demoWorld.GetOwner 3) = (none, freshPicker) :=
  (get_overloads_agree demoWorld freshPicker 3).2 rfl rfl

/-! ## Lemmas on the outer-chain walk -/

open FComponentPickerTypeCustomization

/-- The loop over the edited assets computes the second alternative of `owningObject`. -/
theorem findEditedCDO_eq (w : EditorWorld) (Outer : ObjId) (Assets : List (Option ObjId)) :
    findEditedCDO w Outer Assets =
      if (Assets.any fun Asset =>
          match Asset with
          | some Blueprint => w.IsBlueprint Blueprint && w.GeneratedClass Blueprint == some Outer
          | none => false) = true then
        match w.GetDefaultObject Outer with
        | some CDO => if w.IsActor CDO then some CDO else none
        | none => none
      else none := by
  induction Assets with
  | nil => simp [findEditedCDO]
  | cons Asset rest ih =>
    cases Asset with
    | none => simpa [findEditedCDO] using ih
    | some Blueprint =>
      unfold findEditedCDO
      rw [ih]
      by_cases hb : w.IsBlueprint Blueprint = true
      · by_cases hg : w.GeneratedClass Blueprint = some Outer
        · cases hcdo : w.GetDefaultObject Outer with
          | none => simp [hb, hg]
          | some CDO =>
            by_cases ha : w.IsActor CDO = true
            · simp [hb, hg, ha]
            · simp [hb, hg, ha]
        · simp [hb, hg]
      · simp [hb]

theorem owningObject_of_not_actor (w : EditorWorld) (Element : ObjId)
    (h : w.IsActor Element = false) :
    owningObject w Element = findEditedCDO w Element w.GetAllEditedAssets := by
  rw [findEditedCDO_eq]
  simp [owningObject, isEditedGeneratedClass, h]

/-- An object that is its own outer has a chain that never ends. -/
theorem outerChain_length_of_self (w : EditorWorld) (Object : ObjId)
    (h : w.GetOuter Object = some Object) (n : Nat) :
    (outerChain w n (some Object)).length = n := by
  induction n with
  | zero => rfl
  | succ n ih => simp [outerChain, h, ih]

/-- With fuel beyond the length of a finite chain, the loop ends and yields the first
owning object among the visited elements. -/
theorem walkOuters_eq (w : EditorWorld) (n : Nat) :
    ∀ (fuel : Nat) (Object : Option ObjId), (outerChain w n Object).length < n → n ≤ fuel →
      walkOuters w fuel Object = some ((visited w n Object).findSome? (owningObject w)) := by
  induction n with
  | zero => intro fuel Object h; simp at h
  | succ n ih =>
    intro fuel Object hlen hfuel
    obtain ⟨fuel, rfl⟩ : ∃ f, fuel = f + 1 := ⟨fuel - 1, by omega⟩
    cases Object with
    | none => simp [walkOuters, visited, outerChain]
    | some Outer =>
      have hlen' : (outerChain w n (w.GetOuter Outer)).length < n := by
        simp only [outerChain, List.length_cons] at hlen
        omega
      unfold walkOuters
      by_cases hv : w.IsValid Outer = true
      · by_cases ha : w.IsActor Outer = true
        · simp [visited, outerChain, hv, ha, owningObject]
        · have ha' : w.IsActor Outer = false := by simpa using ha
          have hown := owningObject_of_not_actor w Outer ha'
          cases hcdo : findEditedCDO w Outer w.GetAllEditedAssets with
          | some ActorCDO =>
            simp [visited, outerChain, hv, ha', hown, hcdo]
          | none =>
            have hself : w.GetOuter Outer ≠ some Outer := by
              intro hself
              have := outerChain_length_of_self w Outer hself n
              rw [hself] at hlen'
              omega
            have hrec := ih fuel (w.GetOuter Outer) hlen' (by omega)
            simp only [visited] at hrec
            simp [visited, outerChain, hv, ha', hown, hcdo, hself, hrec]
      · simp [visited, outerChain, hv]

theorem fetchFrom_eq (w : EditorWorld) (n fuel : Nat) (hfuel : n ≤ fuel)
    (ObjectArray : List (Option ObjId))
    (hfin : ∀ Object ∈ ObjectArray, (outerChain w n Object).length < n) :
    fetchFrom w fuel ObjectArray = some (firstOwningObject w n ObjectArray) := by
  induction ObjectArray with
  | nil => simp [fetchFrom, firstOwningObject]
  | cons Object rest ih =>
    have hwalk := walkOuters_eq w n fuel Object (hfin Object (List.mem_cons_self _ _)) hfuel
    have hrest := ih fun O hO => hfin O (List.mem_cons_of_mem _ hO)
    unfold fetchFrom
    rw [hwalk]
    cases hfirst : (visited w n Object).findSome? (owningObject w) with
    | some Actor => simp [firstOwningObject, hfirst]
    | none =>
      simp only [firstOwningObject] at hrest
      simp [firstOwningObject, hfirst, hrest]

/-! ## The editor customization: claims C3, C6 -/

/-- C6. Outer-chain walk of `FetchActorCDOForProperty`: when the chain of every outer object
is finite (it ends within `n` elements), the walk terminates (every fuel from `n` on gives a
result) and returns the first owning object found when the objects are visited in list order
and each chain from the object outwards up to its first invalid element; it returns null
exactly when no visited element of any chain yields an owning object. -/
theorem fetchActorCDO_walk (w : EditorWorld) (PropertyHandle : IPropertyHandle) (n : Nat)
    (hfin : ∀ Object ∈ PropertyHandle.GetOuterObjects, (outerChain w n Object).length < n) :
    (∀ fuel, n ≤ fuel →
      FComponentPickerTypeCustomization.FetchActorCDOForProperty w fuel PropertyHandle =
        some (firstOwningObject w n PropertyHandle.GetOuterObjects)) ∧
    (∀ fuel, n ≤ fuel →
      (FComponentPickerTypeCustomization.FetchActorCDOForProperty w fuel PropertyHandle =
          some none ↔
        ∀ Object ∈ PropertyHandle.GetOuterObjects, ∀ Element ∈ visited w n Object,
          owningObject w Element = none)) := by
  have hval : ∀ fuel, n ≤ fuel →
      FComponentPickerTypeCustomization.FetchActorCDOForProperty w fuel PropertyHandle =
        some (firstOwningObject w n PropertyHandle.GetOuterObjects) := fun fuel hfuel =>
    fetchFrom_eq w n fuel hfuel _ hfin
  refine ⟨hval, ?_⟩
  intro fuel hfuel
  rw [hval fuel hfuel]
  simp [firstOwningObject, List.findSome?_eq_none_iff]

/-- Witness of C6: from the template `5` the walk passes the generated class `4` of the
edited blueprint and returns its actor default object `6`. -/
theorem fetchActorCDO_walk_witness :
    FComponentPickerTypeCustomization.FetchActorCDOForProperty demoEditor 4 demoPropHandle =
      some (some 6) := by
  rw [(fetchActorCDO_walk demoEditor demoPropHandle 4 (by decide)).1 4 (Nat.le_refl 4)]
  decide

/-- C3. The editor writes a selection only if it passes the allowed-class filter: with `A`
the allowed class read from the `AllowedClass` property and `D` the owning object found by
`FetchActorCDOForProperty`, `TrySetComponent(C)` returns, and it sets the `Component`
property to `C` (inside a transaction on `D`) if and only if `D` is non-null and `C` is
null, or `A` is null, or `C` is an instance of `A`; otherwise the state is left as it was:
no transaction, no call on the actor, no write. -/
theorem trySetComponent_filter (w : EditorWorld) (self : FComponentPickerTypeCustomization)
    (fuel : Nat) (st : EditorState) (C A D : Option ObjId)
    (hA : A = FComponentPickerTypeCustomization.ExtractAllowedComponentClass w
      self.AllowedClassPropHandle)
    (hD : FComponentPickerTypeCustomization.FetchActorCDOForProperty w fuel self.PropHandle =
      some D) :
    ∃ st', FComponentPickerTypeCustomization.TrySetComponent w self fuel st C = some st' ∧
      (EditorCall.SetValue C ∈ st'.Calls.drop st.Calls.length ↔
        (D ≠ none ∧ (C = none ∨ A = none ∨
          ∃ c a, C = some c ∧ A = some a ∧ w.IsA c a = true))) ∧
      ((D ≠ none ∧ (C = none ∨ A = none ∨
          ∃ c a, C = some c ∧ A = some a ∧ w.IsA c a = true)) →
        ∃ d, D = some d ∧ st'.Component = C ∧
          st'.Calls = st.Calls ++
            [.ScopedTransaction, .SetFlags d, .Modify d, .SetValue C]) ∧
      (¬ (D ≠ none ∧ (C = none ∨ A = none ∨
          ∃ c a, C = some c ∧ A = some a ∧ w.IsA c a = true)) → st' = st) := by
  unfold FComponentPickerTypeCustomization.TrySetComponent
  rw [← hA, hD]
  cases C with
  | none =>
    cases D with
    | none => exact ⟨st, by simp⟩
    | some d =>
      exact ⟨{ Component := none, Transactional := d :: st.Transactional,
               Modified := d :: st.Modified,
               Calls := st.Calls ++
                 [.ScopedTransaction, .SetFlags d, .Modify d, .SetValue none] },
        by simp, by simp, by simp, by simp⟩
  | some c =>
    cases A with
    | none =>
      cases D with
      | none => exact ⟨st, by simp⟩
      | some d =>
        exact ⟨{ Component := some c, Transactional := d :: st.Transactional,
                 Modified := d :: st.Modified,
                 Calls := st.Calls ++
                   [.ScopedTransaction, .SetFlags d, .Modify d, .SetValue (some c)] },
          by simp, by simp, by simp, by simp⟩
    | some a =>
      by_cases hisA : w.IsA c a = true
      · cases D with
        | none => exact ⟨st, by simp [hisA]⟩
        | some d =>
          exact ⟨{ Component := some c, Transactional := d :: st.Transactional,
                   Modified := d :: st.Modified,
                   Calls := st.Calls ++
                     [.ScopedTransaction, .SetFlags d, .Modify d, .SetValue (some c)] },
            by simp [hisA], by simp [hisA], by simp [hisA], by simp [hisA]⟩
      · exact ⟨st, by simp [hisA]⟩

/-- Witness of C3: with allowed class `8`, of which the template `5` is an instance, and
the owning object `6`, picking `5` opens a transaction on `6` and writes `5`. -/
theorem trySetComponent_filter_witness :
    (FComponentPickerTypeCustomization.TrySetComponent demoEditor demoCustomization 4 idleState
        (some 5)).map (fun st => (st.Component, st.Calls)) =
      some (some 5, [.ScopedTransaction, .SetFlags 6, .Modify 6, .SetValue (some 5)]) := by
  obtain ⟨st', hrun, _, hset, _⟩ :=
    trySetComponent_filter demoEditor demoCustomization 4 idleState (some 5) (some 8) (some 6)
      (by decide) (by decide)
  obtain ⟨d, hd, hcomp, hcalls⟩ := hset ⟨by simp, Or.inr (Or.inr ⟨5, 8, rfl, rfl, by decide⟩)⟩
  cases hd
  rw [hrun, Option.map_some', hcomp, hcalls]
  rfl

end ComponentPicker
